import Mathlib

/-!
Shallow embedding of the edit-history store of a browser photo-editing
client.  The store lives in `src/App.tsx` as React state
(`history : File[]`, `historyIndex : number`) together with the handlers
`addImageToHistory`, `handleImageUpload`, `handleUndo`, `handleRedo`,
`handleReset`, `handleUploadNew` and `handleGenerate`; the fan-out
variation call `generateVariations` lives in
`src/services/geminiService.ts`.  Handlers are embedded as pure state
transformers on a record of the React state they read and write; the
asynchronous remote call inside `handleGenerate` is abstracted by an
`Except` outcome parameter, and the three settled promises inside
`generateVariations` by three `Except` parameters.
-/

namespace Brainwave

/-- An immutable image snapshot (a JS `File`): a name and raw bytes. -/
structure File where
  name : String
  data : List Nat
deriving DecidableEq

/-- A user-selected pixel coordinate (the `editHotspot` object). -/
structure Hotspot where
  x : Int
  y : Int
deriving DecidableEq

/-- A crop rectangle (react-image-crop `Crop`). -/
structure Crop where
  x : Int
  y : Int
  width : Int
  height : Int
deriving DecidableEq

/-- A completed pixel crop rectangle (react-image-crop `PixelCrop`). -/
structure PixelCrop where
  x : Int
  y : Int
  width : Int
  height : Int
deriving DecidableEq

/-- The editor tabs of `App.tsx` (`type Tab`). -/
inductive Tab where
  | retouch | character | harmonize | adjust | filters | crop
  | resize | variations | infographics | animate
deriving DecidableEq

/-- The navigation views of `App.tsx` (`type View`). -/
inductive View where
  | start | textToImage | pricing | tutorials
deriving DecidableEq

/-- The React state of `App` that the history store and its handlers read
and write (fields keep their source names). -/
structure AppState where
  view : View
  isPro : Bool
  credits : Int
  showLimitModal : Bool
  history : List File
  historyIndex : Int
  prompt : String
  loadingTab : Option Tab
  error : Option String
  editHotspot : Option Hotspot
  displayHotspot : Option Hotspot
  activeTab : Tab
  retouchImage : Option File
  crop : Option Crop
  completedCrop : Option PixelCrop
  variations : List String
  selectedVariationIndex : Option Nat
  videoUrl : Option String
  isTourActive : Bool
deriving DecidableEq

/-- `DAILY_FREE_LIMIT = 5` in `App.tsx`. -/
def DAILY_FREE_LIMIT : Int := 5

/-- `COST_IMAGE_GEN = 1` in `App.tsx`. -/
def COST_IMAGE_GEN : Int := 1

/-- The initial `useState` values of the fields above. -/
def initialState : AppState :=
  { view := View.start
    isPro := false
    credits := DAILY_FREE_LIMIT
    showLimitModal := false
    history := []
    historyIndex := -1
    prompt := ""
    loadingTab := none
    error := none
    editHotspot := none
    displayHotspot := none
    activeTab := Tab.retouch
    retouchImage := none
    crop := none
    completedCrop := none
    variations := []
    selectedVariationIndex := none
    videoUrl := none
    isTourActive := false }

/-- JS `l.slice(0, stop)`: a negative stop counts from the end, and the
result is clamped to the array bounds. -/
def jsSliceTo (l : List α) (stop : Int) : List α :=
  if stop < 0 then l.take ((l.length : Int) + stop).toNat else l.take stop.toNat

/-- JS `l[i]`: `undefined` (here `none`) for a negative or out-of-range
index. -/
def jsIndex (l : List α) (i : Int) : Option α :=
  if i < 0 then none else l.get? i.toNat

/-- `const currentImage = history[historyIndex] ?? null`. -/
def currentImage (s : AppState) : Option File :=
  jsIndex s.history s.historyIndex

/-- `const originalImage = history[0] ?? null`. -/
def originalImage (s : AppState) : Option File :=
  s.history.head?

/-- `const canUndo = historyIndex > 0`. -/
def canUndo (s : AppState) : Bool :=
  s.historyIndex > 0

/-- `const canRedo = historyIndex < history.length - 1`. -/
def canRedo (s : AppState) : Bool :=
  s.historyIndex < (s.history.length : Int) - 1

/-- `addImageToHistory` (App.tsx 195-206): truncate the history after the
cursor, push the new image, point the cursor at the new last element, and
clear crop, variations, video and the retouch reference image. -/
def addImageToHistory (s : AppState) (newImageFile : File) : AppState :=
  let newHistory := jsSliceTo s.history (s.historyIndex + 1) ++ [newImageFile]
  { s with
    history := newHistory
    historyIndex := (newHistory.length : Int) - 1
    crop := none
    completedCrop := none
    variations := []
    selectedVariationIndex := none
    videoUrl := none
    retouchImage := none }

/-- `handleImageUpload` (App.tsx 208-229): replace the whole session with
the uploaded file.  The guided-tour flag depends on a localStorage read,
passed in here as `tourSeen`. -/
def handleImageUpload (s : AppState) (file : File) (tourSeen : Bool) : AppState :=
  { s with
    error := none
    history := [file]
    historyIndex := 0
    editHotspot := none
    displayHotspot := none
    activeTab := Tab.retouch
    crop := none
    completedCrop := none
    variations := []
    selectedVariationIndex := none
    videoUrl := none
    retouchImage := none
    view := View.start
    isTourActive := if tourSeen then s.isTourActive else true }

/-- `handleUndo` (App.tsx 587-597). -/
def handleUndo (s : AppState) : AppState :=
  if canUndo s then
    { s with
      historyIndex := s.historyIndex - 1
      editHotspot := none
      displayHotspot := none
      variations := []
      selectedVariationIndex := none
      videoUrl := none
      retouchImage := none }
  else s

/-- `handleRedo` (App.tsx 599-609). -/
def handleRedo (s : AppState) : AppState :=
  if canRedo s then
    { s with
      historyIndex := s.historyIndex + 1
      editHotspot := none
      displayHotspot := none
      variations := []
      selectedVariationIndex := none
      videoUrl := none
      retouchImage := none }
  else s

/-- `handleReset` (App.tsx 611-622). -/
def handleReset (s : AppState) : AppState :=
  if 0 < s.history.length then
    { s with
      historyIndex := 0
      error := none
      editHotspot := none
      displayHotspot := none
      variations := []
      selectedVariationIndex := none
      videoUrl := none
      retouchImage := none }
  else s

/-- `handleUploadNew` (App.tsx 624-636): discard the session. -/
def handleUploadNew (s : AppState) : AppState :=
  { s with
    history := []
    historyIndex := -1
    error := none
    prompt := ""
    editHotspot := none
    displayHotspot := none
    variations := []
    selectedVariationIndex := none
    videoUrl := none
    retouchImage := none
    view := View.start }

/-- JS `String.prototype.trim`: strip leading and trailing whitespace. -/
def jsTrim (s : String) : String :=
  String.mk
    (((s.data.dropWhile Char.isWhitespace).reverse.dropWhile
        Char.isWhitespace).reverse)

/-- `checkCredits` (App.tsx 126-133), as its returned Bool; the modal side
effect is applied at the call site in `handleGenerate` below. -/
def checkCredits (s : AppState) (cost : Int) : Bool :=
  s.isPro || cost ≤ s.credits

/-- `deductCredits` (App.tsx 135-140); the localStorage write is external. -/
def deductCredits (s : AppState) (cost : Int) : AppState :=
  if s.isPro then s else { s with credits := s.credits - cost }

/-- `handleGenerate` (App.tsx 260-291).  The awaited remote call
`generateEditedImage` together with the `dataURLtoFile` conversion is
abstracted by `outcome`: `Except.ok` carries the produced image file;
`Except.error` carries the message of the thrown error. -/
def handleGenerate (outcome : Except String File) (s : AppState) : AppState :=
  if (currentImage s).isNone || s.loadingTab.isSome then s
  else if checkCredits s COST_IMAGE_GEN = false then
    { s with showLimitModal := true }
  else if jsTrim s.prompt = "" then
    { s with error := some "Please enter a description for your edit." }
  else if s.editHotspot.isNone then
    { s with error := some "Please click on the image to select an area to edit." }
  else
    let s1 := { s with loadingTab := some Tab.retouch, error := none }
    match outcome with
    | Except.ok newImageFile =>
      let s2 := addImageToHistory s1 newImageFile
      let s3 := deductCredits s2 COST_IMAGE_GEN
      { s3 with
        editHotspot := none
        displayHotspot := none
        retouchImage := none
        loadingTab := none }
    | Except.error msg =>
      { s1 with
        error := some ("Failed to generate the image. " ++ msg)
        loadingTab := none }

/-- The value of a settled promise in `generateVariations`: `some` for a
fulfilled request, `none` for a rejected one. -/
def settledValue : Except String String → Option String
  | Except.ok v => some v
  | Except.error _ => none

/-- Whether a settled promise was fulfilled. -/
def isFulfilled : Except String String → Bool
  | Except.ok _ => true
  | Except.error _ => false

/-- `generateVariations` (geminiService.ts 185-228): three concurrent
requests are awaited with `Promise.allSettled`; the fulfilled values are
kept; if none fulfilled the function throws, using the first rejection
message when it is non-empty (JS truthiness of `.message ||`). -/
def generateVariations (r1 r2 r3 : Except String String) :
    Except String (List String) :=
  let results := [r1, r2, r3]
  let successfulVariations := results.filterMap settledValue
  if successfulVariations.length = 0 then
    let firstError := results.findSome? fun r =>
      match r with
      | Except.error e => some e
      | Except.ok _ => none
    match firstError with
    | some e =>
      if e = "" then
        Except.error "Failed to generate any variations. Please try a different prompt."
      else Except.error e
    | none =>
      Except.error "Failed to generate any variations. Please try a different prompt."
  else
    Except.ok successfulVariations

/-- Sample image files used in concrete traces and witnesses. -/
def f0 : File := ⟨"v0", [0]⟩

/-- Second sample image file. -/
def f1 : File := ⟨"v1", [1]⟩

/-- Third sample image file. -/
def f2 : File := ⟨"v2", [2]⟩

/-- Fourth sample image file. -/
def f3 : File := ⟨"v3", [3]⟩

/-- A sample crop rectangle. -/
def c0 : Crop := ⟨1, 2, 3, 4⟩

/-- A sample hotspot. -/
def h0 : Hotspot := ⟨5, 6⟩

/-- A sample two-version session: load `f0`, append `f1` (cursor 1). -/
def sampleSession : AppState :=
  addImageToHistory (handleImageUpload initialState f0 true) f1

/-- C10: undo, redo and reset never modify the version sequence itself:
for every state, the history list after each of the three handlers is
identical to the history list before it. -/
theorem moves_preserve_versions (s : AppState) :
    (handleUndo s).history = s.history
      ∧ (handleRedo s).history = s.history
      ∧ (handleReset s).history = s.history := by
  refine ⟨?_, ?_, ?_⟩ <;>
    simp only [handleUndo, handleRedo, handleReset] <;>
    split <;> rfl

/-- C4 counterexample: `addImageToHistory` called on the empty store does
not fail: it yields the one-element history `[f0]` with cursor 0, a valid
loaded state, rather than signalling any `InvalidState` error. -/
theorem append_on_empty_succeeds_cex :
    (addImageToHistory initialState f0).history = [f0]
      ∧ (addImageToHistory initialState f0).historyIndex = 0 := by
  decide

/-- C4 amended: `addImageToHistory` called while the version sequence is
empty succeeds, behaving as an initial load: the resulting sequence is
`[v]` with cursor 0. -/
theorem append_on_empty_loads (s : AppState) (v : File)
    (h : s.history = []) :
    (addImageToHistory s v).history = [v]
      ∧ (addImageToHistory s v).historyIndex = 0 := by
  simp [addImageToHistory, jsSliceTo, h]

/-- C4 amended witness at the initial state. -/
theorem append_on_empty_loads_witness :
    initialState.history = []
      ∧ ((addImageToHistory initialState f1).history = [f1]
          ∧ (addImageToHistory initialState f1).historyIndex = 0) :=
  ⟨by decide, append_on_empty_loads initialState f1 (by decide)⟩

/-- C7: at cursor 0 undo declines (canUndo is false) and leaves the state
unchanged; at the last index redo declines (canRedo is false) and leaves
the state unchanged. -/
theorem boundary_noops (s : AppState) :
    (s.historyIndex = 0 → handleUndo s = s ∧ canUndo s = false)
      ∧ (s.historyIndex = (s.history.length : Int) - 1 →
          handleRedo s = s ∧ canRedo s = false) := by
  constructor
  · intro h
    have hcu : canUndo s = false := by
      simp [canUndo, h]
    exact ⟨by simp [handleUndo, hcu], hcu⟩
  · intro h
    have hcr : canRedo s = false := by
      simp [canRedo, h]
    exact ⟨by simp [handleRedo, hcr], hcr⟩

/-- C7 witness: undo declines at cursor 0 right after a load, and redo
declines at the last index of the two-version sample session. -/
theorem boundary_noops_witness :
    (handleUndo (handleImageUpload initialState f0 true)
        = handleImageUpload initialState f0 true
      ∧ canUndo (handleImageUpload initialState f0 true) = false)
      ∧ (handleRedo sampleSession = sampleSession
          ∧ canRedo sampleSession = false) :=
  ⟨(boundary_noops (handleImageUpload initialState f0 true)).1 (by decide),
   (boundary_noops sampleSession).2 (by decide)⟩

/-- The concrete trace of the reset claim: load `f0`, append `f1`,
append `f2`, then reset. -/
def resetTrace : AppState :=
  handleReset
    (addImageToHistory
      (addImageToHistory (handleImageUpload initialState f0 true) f1) f2)

/-- C3: on a non-empty history, reset sets the cursor to 0 and leaves the
version sequence unchanged; in the concrete trace load `f0`, append `f1`,
append `f2`, reset, the length is still 3 with cursor 0 and redo moves the
cursor to 1 and then 2. -/
theorem reset_keeps_versions (s : AppState) (h : s.history ≠ []) :
    ((handleReset s).historyIndex = 0 ∧ (handleReset s).history = s.history)
      ∧ (resetTrace.history.length = 3 ∧ resetTrace.historyIndex = 0
          ∧ (handleRedo resetTrace).historyIndex = 1
          ∧ (handleRedo (handleRedo resetTrace)).historyIndex = 2) := by
  have hlen : 0 < s.history.length := List.length_pos.mpr h
  exact ⟨⟨by simp [handleReset, hlen], by simp [handleReset, hlen]⟩, by decide⟩

/-- C3 witness at the two-version sample session. -/
theorem reset_keeps_versions_witness :
    sampleSession.history ≠ []
      ∧ (((handleReset sampleSession).historyIndex = 0
            ∧ (handleReset sampleSession).history = sampleSession.history)
          ∧ (resetTrace.history.length = 3 ∧ resetTrace.historyIndex = 0
              ∧ (handleRedo resetTrace).historyIndex = 1
              ∧ (handleRedo (handleRedo resetTrace)).historyIndex = 2)) :=
  ⟨by decide, reset_keeps_versions sampleSession (by decide)⟩

/-- C6: from any state whose cursor is in range and positive, undo
immediately followed by redo restores the same cursor and the same
current version. -/
theorem undo_redo_roundtrip (s : AppState) (h1 : 0 < s.historyIndex)
    (h2 : s.historyIndex < (s.history.length : Int)) :
    (handleRedo (handleUndo s)).historyIndex = s.historyIndex
      ∧ currentImage (handleRedo (handleUndo s)) = currentImage s := by
  have hcu : canUndo s = true := by
    simp only [canUndo, gt_iff_lt, decide_eq_true_eq]
    exact h1
  simp only [handleUndo, hcu, if_true]
  have hcr : (s.historyIndex - 1) < (s.history.length : Int) - 1 := by omega
  constructor
  · simp only [handleRedo, canRedo]
    simp only [decide_eq_true_eq]
    rw [if_pos]
    · simp
    · simpa using hcr
  · simp only [handleRedo, canRedo]
    simp only [decide_eq_true_eq]
    rw [if_pos]
    · simp only [currentImage, jsIndex]
      have h3 : s.historyIndex - 1 + 1 = s.historyIndex := by omega
      simp [h3]
    · simpa using hcr

/-- C6 witness at the two-version sample session (cursor 1 of 2). -/
theorem undo_redo_roundtrip_witness :
    (0 < sampleSession.historyIndex
        ∧ sampleSession.historyIndex < (sampleSession.history.length : Int))
      ∧ ((handleRedo (handleUndo sampleSession)).historyIndex
            = sampleSession.historyIndex
          ∧ currentImage (handleRedo (handleUndo sampleSession))
            = currentImage sampleSession) :=
  ⟨⟨by decide, by decide⟩,
   undo_redo_roundtrip sampleSession (by decide) (by decide)⟩

/-- The cursor invariant of the data model: either nothing is loaded
(empty sequence, cursor -1) or the cursor is a valid index. -/
def HistInv (s : AppState) : Prop :=
  (s.history = [] ∧ s.historyIndex = -1)
    ∨ (s.history ≠ [] ∧ 0 ≤ s.historyIndex
        ∧ s.historyIndex < (s.history.length : Int))

instance (s : AppState) : Decidable (HistInv s) := by
  unfold HistInv
  infer_instance

/-- Appending always lands in a valid loaded state, whatever the input
state was: the new history ends with the new file and the new cursor is
its last index. -/
lemma histInv_addImageToHistory (s : AppState) (v : File) :
    HistInv (addImageToHistory s v) := by
  right
  refine ⟨by simp [addImageToHistory], ?_, ?_⟩ <;>
    simp [addImageToHistory]

/-- C8: the cursor invariant holds at the initial state and is preserved
by load, append, undo, redo, reset and the new-session discard. -/
theorem cursor_invariant_preserved (s : AppState) (v : File) (b : Bool)
    (h : HistInv s) :
    HistInv initialState
      ∧ HistInv (handleImageUpload s v b)
      ∧ HistInv (addImageToHistory s v)
      ∧ HistInv (handleUndo s)
      ∧ HistInv (handleRedo s)
      ∧ HistInv (handleReset s)
      ∧ HistInv (handleUploadNew s) := by
  refine ⟨by decide, ?_, histInv_addImageToHistory s v, ?_, ?_, ?_, ?_⟩
  · right
    refine ⟨by simp [handleImageUpload], ?_, ?_⟩ <;> simp [handleImageUpload]
  · by_cases hcu : canUndo s = true
    · have hidx : 0 < s.historyIndex := by
        simpa [canUndo] using hcu
      rcases h with ⟨h1, h2⟩ | ⟨h1, h2, h3⟩
      · omega
      · right
        simp only [handleUndo, hcu, if_true]
        exact ⟨h1, by omega, by omega⟩
    · simpa [handleUndo, hcu] using h
  · by_cases hcr : canRedo s = true
    · have hidx : s.historyIndex < (s.history.length : Int) - 1 := by
        simpa [canRedo] using hcr
      rcases h with ⟨h1, h2⟩ | ⟨h1, h2, h3⟩
      · exfalso
        rw [h1] at hidx
        simp at hidx
        omega
      · right
        simp only [handleRedo, hcr, if_true]
        exact ⟨h1, by omega, by omega⟩
    · simpa [handleRedo, hcr] using h
  · by_cases hl : 0 < s.history.length
    · right
      simp only [handleReset, hl, if_pos]
      refine ⟨?_, by simp, ?_⟩
      · simpa using List.ne_nil_of_length_pos hl
      · simpa using hl
    · simpa [handleReset, hl] using h
  · left
    exact ⟨rfl, rfl⟩

/-- C8 witness at the two-version sample session. -/
theorem cursor_invariant_preserved_witness :
    HistInv sampleSession
      ∧ (HistInv initialState
          ∧ HistInv (handleImageUpload sampleSession f2 true)
          ∧ HistInv (addImageToHistory sampleSession f2)
          ∧ HistInv (handleUndo sampleSession)
          ∧ HistInv (handleRedo sampleSession)
          ∧ HistInv (handleReset sampleSession)
          ∧ HistInv (handleUploadNew sampleSession)) :=
  ⟨by decide, cursor_invariant_preserved sampleSession f2 true (by decide)⟩

/-- Iterated `addImageToHistory`, used to state the N-appends law. -/
def appendList (s : AppState) (vs : List File) : AppState :=
  vs.foldl addImageToHistory s

/-- When the cursor sits on the last element (also vacuously at the empty
store, where it is -1), appending grows the history by exactly one. -/
lemma length_addImageToHistory_aligned (s : AppState) (v : File)
    (h : s.historyIndex = (s.history.length : Int) - 1) :
    (addImageToHistory s v).history.length = s.history.length + 1 := by
  unfold addImageToHistory jsSliceTo
  simp only
  rw [h]
  have h1 : (s.history.length : Int) - 1 + 1 = (s.history.length : Int) := by
    ring
  rw [h1, if_neg (by omega)]
  simp

/-- After `addImageToHistory` the cursor is the last index, by
construction. -/
lemma index_addImageToHistory (s : AppState) (v : File) :
    (addImageToHistory s v).historyIndex
      = ((addImageToHistory s v).history.length : Int) - 1 := rfl

/-- Folding a list of appends from a cursor-on-last state adds one version
per append and keeps the cursor on the last index. -/
lemma appendList_aligned : ∀ (vs : List File) (s : AppState),
    s.historyIndex = (s.history.length : Int) - 1 →
    (appendList s vs).history.length = s.history.length + vs.length
      ∧ (appendList s vs).historyIndex
          = ((appendList s vs).history.length : Int) - 1 := by
  intro vs
  induction vs with
  | nil =>
    intro s h
    exact ⟨by simp [appendList], by simpa [appendList] using h⟩
  | cons v vs ih =>
    intro s h
    have hlen := length_addImageToHistory_aligned s v h
    have hrec := ih (addImageToHistory s v) (index_addImageToHistory s v)
    have heq : appendList s (v :: vs) = appendList (addImageToHistory s v) vs := rfl
    rw [heq]
    refine ⟨?_, hrec.2⟩
    rw [hrec.1, hlen]
    simp only [List.length_cons]
    omega

/-- The concrete trace of the branch-discarding claim: load `f0`, append
`f1`, append `f2`, undo, undo, append `f3`. -/
def c1Trace : AppState :=
  addImageToHistory
    (handleUndo
      (handleUndo
        (addImageToHistory
          (addImageToHistory (handleImageUpload initialState f0 true) f1) f2)))
    f3

/-- C1: with the cursor in range, append truncates to `[0..cursor]` and
pushes the new version with the cursor on the new last index; N appends
from the empty store give length N with the cursor on the last index; and
the trace load `f0`, append `f1`, append `f2`, undo, undo, append `f3`
ends with history `[f0, f3]` and cursor 1. -/
theorem append_truncates_and_counts (s : AppState) (v : File)
    (h0 : 0 ≤ s.historyIndex)
    (h1 : s.historyIndex < (s.history.length : Int)) :
    ((addImageToHistory s v).history
        = s.history.take (s.historyIndex.toNat + 1) ++ [v]
      ∧ (addImageToHistory s v).historyIndex
          = ((addImageToHistory s v).history.length : Int) - 1)
      ∧ (∀ vs : List File,
          (appendList initialState vs).history.length = vs.length
            ∧ (appendList initialState vs).historyIndex
                = (vs.length : Int) - 1)
      ∧ (c1Trace.history = [f0, f3] ∧ c1Trace.historyIndex = 1) := by
  refine ⟨⟨?_, index_addImageToHistory s v⟩, ?_, by decide⟩
  · unfold addImageToHistory jsSliceTo
    simp only
    rw [if_neg (by omega)]
    have h2 : (s.historyIndex + 1).toNat = s.historyIndex.toNat + 1 := by
      omega
    rw [h2]
  · intro vs
    have h3 : initialState.historyIndex
        = (initialState.history.length : Int) - 1 := by decide
    have h4 := appendList_aligned vs initialState h3
    have h5 : initialState.history.length = 0 := rfl
    refine ⟨by rw [h4.1, h5]; omega, ?_⟩
    rw [h4.2, h4.1, h5]
    simp

/-- C1 witness at the two-version sample session (cursor 1 of 2). -/
theorem append_truncates_and_counts_witness :
    (0 ≤ sampleSession.historyIndex
        ∧ sampleSession.historyIndex < (sampleSession.history.length : Int))
      ∧ (((addImageToHistory sampleSession f2).history
            = sampleSession.history.take (sampleSession.historyIndex.toNat + 1)
                ++ [f2]
          ∧ (addImageToHistory sampleSession f2).historyIndex
              = ((addImageToHistory sampleSession f2).history.length : Int) - 1)
          ∧ (∀ vs : List File,
              (appendList initialState vs).history.length = vs.length
                ∧ (appendList initialState vs).historyIndex
                    = (vs.length : Int) - 1)
          ∧ (c1Trace.history = [f0, f3] ∧ c1Trace.historyIndex = 1)) :=
  ⟨⟨by decide, by decide⟩,
   append_truncates_and_counts sampleSession f2 (by decide) (by decide)⟩

/-- A three-version session parked in the middle: load `f0`, append `f1`,
append `f2`, undo (history length 3, cursor 1), with a crop rectangle and
a hotspot selected. -/
def midSession : AppState :=
  { handleUndo
      (addImageToHistory
        (addImageToHistory (handleImageUpload initialState f0 true) f1) f2)
    with
    crop := some c0
    completedCrop := some ⟨1, 2, 3, 4⟩
    editHotspot := some h0
    displayHotspot := some h0 }

/-- C5 counterexample: undo mutates the cursor yet leaves the crop
rectangle in place, and append truncates the sequence yet leaves the
hotspot coordinate in place, so not every cursor-mutating or truncating
operation clears all four transient selections. -/
theorem transient_clear_cex :
    canUndo midSession = true
      ∧ (handleUndo midSession).crop = some c0
      ∧ (addImageToHistory midSession f3).editHotspot = some h0 := by
  decide

/-- C5 amended: append clears the crop rectangle, the completed crop, the
variation candidates, the selected variation, the pending video URL and
the retouch reference image, but leaves the hotspot coordinate to its
callers; undo, redo and reset clear the hotspot coordinates, the variation
candidates, the selected variation, the pending video URL and the retouch
reference image, but leave the crop rectangle in place. -/
theorem transient_clear_per_op (s : AppState) (v : File) :
    ((addImageToHistory s v).crop = none
      ∧ (addImageToHistory s v).completedCrop = none
      ∧ (addImageToHistory s v).variations = []
      ∧ (addImageToHistory s v).selectedVariationIndex = none
      ∧ (addImageToHistory s v).videoUrl = none
      ∧ (addImageToHistory s v).retouchImage = none
      ∧ (addImageToHistory s v).editHotspot = s.editHotspot)
    ∧ (canUndo s = true →
        (handleUndo s).editHotspot = none
        ∧ (handleUndo s).displayHotspot = none
        ∧ (handleUndo s).variations = []
        ∧ (handleUndo s).selectedVariationIndex = none
        ∧ (handleUndo s).videoUrl = none
        ∧ (handleUndo s).retouchImage = none
        ∧ (handleUndo s).crop = s.crop)
    ∧ (canRedo s = true →
        (handleRedo s).editHotspot = none
        ∧ (handleRedo s).displayHotspot = none
        ∧ (handleRedo s).variations = []
        ∧ (handleRedo s).selectedVariationIndex = none
        ∧ (handleRedo s).videoUrl = none
        ∧ (handleRedo s).retouchImage = none
        ∧ (handleRedo s).crop = s.crop)
    ∧ (s.history ≠ [] →
        (handleReset s).editHotspot = none
        ∧ (handleReset s).displayHotspot = none
        ∧ (handleReset s).variations = []
        ∧ (handleReset s).selectedVariationIndex = none
        ∧ (handleReset s).videoUrl = none
        ∧ (handleReset s).retouchImage = none
        ∧ (handleReset s).crop = s.crop) := by
  refine ⟨?_, ?_, ?_, ?_⟩
  · simp [addImageToHistory]
  · intro hcu
    simp [handleUndo, hcu]
  · intro hcr
    simp [handleRedo, hcr]
  · intro hne
    have hlen : 0 < s.history.length := List.length_pos.mpr hne
    simp [handleReset, hlen]

/-- C5 amended witness at `midSession`, where undo, redo and reset all
apply. -/
theorem transient_clear_per_op_witness :
    ((addImageToHistory midSession f3).crop = none
      ∧ (addImageToHistory midSession f3).completedCrop = none
      ∧ (addImageToHistory midSession f3).variations = []
      ∧ (addImageToHistory midSession f3).selectedVariationIndex = none
      ∧ (addImageToHistory midSession f3).videoUrl = none
      ∧ (addImageToHistory midSession f3).retouchImage = none
      ∧ (addImageToHistory midSession f3).editHotspot = midSession.editHotspot)
    ∧ ((handleUndo midSession).editHotspot = none
        ∧ (handleUndo midSession).displayHotspot = none
        ∧ (handleUndo midSession).variations = []
        ∧ (handleUndo midSession).selectedVariationIndex = none
        ∧ (handleUndo midSession).videoUrl = none
        ∧ (handleUndo midSession).retouchImage = none
        ∧ (handleUndo midSession).crop = midSession.crop)
    ∧ ((handleRedo midSession).editHotspot = none
        ∧ (handleRedo midSession).displayHotspot = none
        ∧ (handleRedo midSession).variations = []
        ∧ (handleRedo midSession).selectedVariationIndex = none
        ∧ (handleRedo midSession).videoUrl = none
        ∧ (handleRedo midSession).retouchImage = none
        ∧ (handleRedo midSession).crop = midSession.crop)
    ∧ ((handleReset midSession).editHotspot = none
        ∧ (handleReset midSession).displayHotspot = none
        ∧ (handleReset midSession).variations = []
        ∧ (handleReset midSession).selectedVariationIndex = none
        ∧ (handleReset midSession).videoUrl = none
        ∧ (handleReset midSession).retouchImage = none
        ∧ (handleReset midSession).crop = midSession.crop) :=
  ⟨(transient_clear_per_op midSession f3).1,
   (transient_clear_per_op midSession f3).2.1 (by decide),
   (transient_clear_per_op midSession f3).2.2.1 (by decide),
   (transient_clear_per_op midSession f3).2.2.2 (by decide)⟩

/-- A state ready for `handleGenerate`: the sample session with a prompt
typed and a hotspot selected. -/
def genReadyState : AppState :=
  { sampleSession with prompt := "add a hat", editHotspot := some h0 }

/-- C2: a failed remote edit never touches the store: for every state and
every rejection message, `handleGenerate` with a rejected call leaves the
history and the cursor exactly as they were; and when the call was
actually issued (all guards passed), the only observable outcome is the
user-visible error message. -/
theorem failed_generate_preserves_history (s : AppState) (msg : String) :
    ((handleGenerate (Except.error msg) s).history = s.history
      ∧ (handleGenerate (Except.error msg) s).historyIndex = s.historyIndex)
    ∧ (currentImage s ≠ none → s.loadingTab = none →
        checkCredits s COST_IMAGE_GEN = true → jsTrim s.prompt ≠ "" →
        s.editHotspot ≠ none →
        (handleGenerate (Except.error msg) s).error
          = some ("Failed to generate the image. " ++ msg)) := by
  constructor
  · unfold handleGenerate
    split_ifs <;> exact ⟨rfl, rfl⟩
  · intro hc hl hcr hp hh
    unfold handleGenerate
    rw [if_neg (by simp [hl, Option.isNone_iff_eq_none, hc]),
      if_neg (by simp [hcr]), if_neg hp,
      if_neg (by simp [Option.isNone_iff_eq_none, hh])]

/-- C2 witness at a generate-ready state. -/
theorem failed_generate_preserves_history_witness :
    (((handleGenerate (Except.error "boom") genReadyState).history
          = genReadyState.history
      ∧ (handleGenerate (Except.error "boom") genReadyState).historyIndex
          = genReadyState.historyIndex)
      ∧ (handleGenerate (Except.error "boom") genReadyState).error
          = some ("Failed to generate the image. " ++ "boom")) :=
  ⟨(failed_generate_preserves_history genReadyState "boom").1,
   (failed_generate_preserves_history genReadyState "boom").2
     (by decide) (by decide) (by decide) (by decide) (by decide)⟩

/-- C9: the variation fan-out succeeds whenever at least one of its three
requests fulfills, returning exactly the fulfilled values, and it throws
precisely when all three requests reject. -/
theorem variations_any_success (r1 r2 r3 : Except String String) :
    ((isFulfilled r1 = true ∨ isFulfilled r2 = true ∨ isFulfilled r3 = true) →
        generateVariations r1 r2 r3
          = Except.ok ([r1, r2, r3].filterMap settledValue))
      ∧ ((∃ e, generateVariations r1 r2 r3 = Except.error e)
          ↔ (isFulfilled r1 = false ∧ isFulfilled r2 = false
              ∧ isFulfilled r3 = false)) := by
  rcases r1 with e1 | v1 <;> rcases r2 with e2 | v2 <;>
    rcases r3 with e3 | v3 <;>
    constructor <;>
    simp [generateVariations, settledValue, isFulfilled] <;>
    split_ifs <;> simp

/-- C9 witness: one fulfilled request out of three yields exactly its
value; the hypothesis of the success law is discharged concretely. -/
theorem variations_any_success_witness :
    (isFulfilled (Except.ok "a") = true
        ∨ isFulfilled (Except.error "x") = true
        ∨ isFulfilled (Except.error "y") = true)
      ∧ generateVariations (Except.ok "a") (Except.error "x") (Except.error "y")
          = Except.ok (([Except.ok "a", Except.error "x", Except.error "y"]
              : List (Except String String)).filterMap settledValue) :=
  ⟨Or.inl rfl,
   (variations_any_success (Except.ok "a") (Except.error "x")
       (Except.error "y")).1 (Or.inl rfl)⟩

end Brainwave
